import Mathlib

/-!
Verification of the nablax-backend MCP orchestration core.

Shallow embedding of:
  - src/services/agent_service/mcp_registry.py  (MCPRegistry)
  - src/services/agent_service/main.py          (module-level orchestrator)
  - src/services/agent_service/llm_tool_selector.py (LLMToolSelector)
  - src/services/agent_service/mcp_client.py    (MCPClient.__aexit__)

Python strings are modelled by Lean `String`; `a in b` (substring test) by
`pyIn`; `str.lower()` by `pyLower` (ASCII case folding, which covers every
string occurring in the repository's configuration and tests). Python dicts
(which iterate in insertion order) are modelled by association lists.
Effectful calls (the MCP protocol session, the external LLM) are modelled by
explicit outcome parameters of type `Except String _`: `.error e` stands for
the call raising an exception whose rendering is `e`, `.ok v` for a normal
return.
-/

/-- Model of Python `str.lower()` (ASCII case folding). -/
def pyLower (s : String) : String := String.mk (s.toList.map Char.toLower)

/-- Contiguous-sublist test on lists of characters: `true` iff the first list
occurs (contiguously) somewhere in the second. -/
def charsIn : List Char → List Char → Bool
  | needle, [] => needle.isEmpty
  | needle, h :: t => needle.isPrefixOf (h :: t) || charsIn needle t

/-- Model of Python `needle in haystack` for strings: substring containment. -/
def pyIn (needle haystack : String) : Bool :=
  charsIn needle.toList haystack.toList

/-- Python values as they appear in the argument mappings built by this code:
either a string or a nested string-keyed mapping. -/
inductive PyVal where
  | s (v : String)
  | d (m : List (String × PyVal))

/-- A Python dict with string keys and `PyVal` values (insertion order kept). -/
abbrev PyDict := List (String × PyVal)

/-- Descriptor of one MCP server, from `MCPServerInfo` in mcp_registry.py and
the per-server dict built by `load_mcp_config` in main.py (the `client` field,
an opaque process handle, is not part of the data model here). -/
structure MCPServerInfo where
  name : String
  command : String
  args : List String
  description : String
  keywords : List String
deriving DecidableEq

/-- One raw server entry of the parsed JSON configuration: each field may be
absent, in which case the loader substitutes its default. -/
structure RawServerConfig where
  command : Option String
  args : Option (List String)
  description : Option String
  keywords : Option (List String)
deriving DecidableEq

/-- Building an `MCPServerInfo` from one configuration entry, with the defaults
used in both loaders: command `python`, args `[]`, description
`MCP Server: <name>`, keywords `[]`. -/
def mkServerInfo (server_name : String) (c : RawServerConfig) : MCPServerInfo :=
  { name := server_name
    command := c.command.getD "python"
    args := c.args.getD []
    description := c.description.getD ("MCP Server: " ++ server_name)
    keywords := c.keywords.getD [] }

/-- The configuration source as both loaders observe it: the file may be
absent, may fail to parse (json.load raises), or parses to the ordered entry
list of the `mcpServers` object. -/
inductive ConfigSource where
  | absent
  | malformed (msg : String)
  | parsed (mcpServers : List (String × RawServerConfig))

/-- Python dict insertion `servers[name] = info`: an existing key keeps its
position and gets the new value, a new key is appended. -/
def dictInsert (servers : List MCPServerInfo) (info : MCPServerInfo) :
    List MCPServerInfo :=
  if servers.any (fun s => s.name == info.name) then
    servers.map (fun s => if s.name == info.name then info else s)
  else servers ++ [info]

/-- `load_mcp_config` from main.py: if the file is absent it logs and returns;
if json.load raises, the exception is caught, logged and swallowed; otherwise
every entry is inserted into the existing (uncleared) mapping. The function
never raises and never clears prior entries. -/
def load_mcp_config (mcp_servers : List MCPServerInfo) (src : ConfigSource) :
    List MCPServerInfo :=
  match src with
  | .absent => mcp_servers
  | .malformed _ => mcp_servers
  | .parsed entries =>
      entries.foldl (fun acc e => dictInsert acc (mkServerInfo e.1 e.2)) mcp_servers

/-- `find_server_by_keywords` from main.py: first server (in load order) one of
whose keywords, lowercased, occurs in the lowercased text; otherwise the first
loaded server's name if any, else none. -/
def find_server_by_keywords (mcp_servers : List MCPServerInfo) (text : String) :
    Option String :=
  match mcp_servers.find?
      (fun s => s.keywords.any (fun keyword => pyIn (pyLower keyword) (pyLower text))) with
  | some s => some s.name
  | none => mcp_servers.head?.map MCPServerInfo.name

namespace MCPRegistry

/-- `MCPRegistry.load_config`: same loading loop as `load_mcp_config`, same
swallowing of absent/malformed sources, inserting into `self.servers` without
clearing it. -/
def load_config (servers : List MCPServerInfo) (src : ConfigSource) :
    List MCPServerInfo :=
  match src with
  | .absent => servers
  | .malformed _ => servers
  | .parsed entries =>
      entries.foldl (fun acc e => dictInsert acc (mkServerInfo e.1 e.2)) servers

/-- `MCPRegistry.reload_config`: `self.servers.clear()` followed by
`self.load_config()` — the prior state is discarded before loading. -/
def reload_config (_servers : List MCPServerInfo) (src : ConfigSource) :
    List MCPServerInfo :=
  load_config [] src

/-- `MCPRegistry.find_server_by_keywords`: first the keyword loop (as in
main.py), then a fallback loop returning the first server whose lowercased
name occurs in the lowercased text, then `None`. -/
def find_server_by_keywords (servers : List MCPServerInfo) (text : String) :
    Option MCPServerInfo :=
  match servers.find?
      (fun server => server.keywords.any
        (fun keyword => pyIn (pyLower keyword) (pyLower text))) with
  | some server => some server
  | none =>
      servers.find? (fun server => pyIn (pyLower server.name) (pyLower text))

end MCPRegistry

/-- The split-pattern list of main.py's `do_task` and of
`LLMToolSelector._generate_fallback_arguments` (the two sites carry the same
literal list). -/
def email_split_patterns : List String := ["：", ":", "邮件", "内容是", "下面的"]

/-- The pattern loop shared by `do_task` and `_generate_fallback_arguments`:
for the first pattern occurring in the request whose split yields more than
one part, take the last part stripped; otherwise keep the whole request. -/
def extract_original_go (user_request : String) : List String → String
  | [] => user_request
  | p :: ps =>
      if pyIn p user_request then
        let parts := user_request.splitOn p
        if parts.length > 1 then (parts.getLastD user_request).trim
        else extract_original_go user_request ps
      else extract_original_go user_request ps

/-- Email-content extraction from a free-text request (do_task lines 183-190,
_generate_fallback_arguments lines 312-320). -/
def extract_original_email (user_request : String) : String :=
  extract_original_go user_request email_split_patterns

/-- Tone detection shared by `do_task` and `_generate_fallback_arguments`:
casual if the request mentions 轻松 or casual, else urgent if it mentions
紧急 or urgent, else professional. -/
def detect_tone (user_request : String) : String :=
  if pyIn "轻松" user_request || pyIn "casual" (pyLower user_request) then "casual"
  else if pyIn "紧急" user_request || pyIn "urgent" (pyLower user_request) then "urgent"
  else "professional"

/-- The argument mapping `do_task` builds before calling the MCP server
(context is a plain string there, per the MCP server schema comment). -/
def do_task_arguments (user_request : String) : PyDict :=
  let original_email := extract_original_email user_request
  let tone := detect_tone user_request
  let urgency := if tone == "urgent" then "high" else "normal"
  [("original_email", .s (if original_email == "" then "User request" else original_email)),
   ("tone", .s tone),
   ("context", .s ("Reply type: reply, Urgency: " ++ urgency))]

/-- The mapping `call_mcp_server` returns: on success the raw result plus
selection metadata, on a caught session exception `success := false` with the
server name, tool name and the rendered error. -/
structure MCPCallResult where
  success : Bool
  server_name : String
  tool_name : String
  raw_mcp_result : Option String
  error : Option String
  command : String
  args : List String
  description : String
  data : Option (String × String)
deriving DecidableEq

/-- `call_mcp_server` from main.py. The scoped session use (`async with client
... call_tool`) is modelled by `outcome`: `.ok result` if the tool call
returned `result` (rendered), `.error e` if anything inside the `async with`
raised `e`. An unregistered server name raises ValueError before any session
is opened — that is the only uncaught path, modelled as `.error`. The
`arguments` are passed through opaquely and do not influence the result. -/
def call_mcp_server (mcp_servers : List MCPServerInfo) (server_name tool_name : String)
    (_arguments : PyDict) (outcome : Except String String) :
    Except String MCPCallResult :=
  match mcp_servers.find? (fun s => s.name == server_name) with
  | none => .error ("Server not found: " ++ server_name)
  | some server_info =>
      match outcome with
      | .ok result =>
          .ok { success := true
                server_name := server_name
                tool_name := tool_name
                raw_mcp_result := some result
                error := none
                command := server_info.command
                args := server_info.args
                description := server_info.description
                data := some ("MCP Response", result) }
      | .error e =>
          .ok { success := false
                server_name := server_name
                tool_name := tool_name
                raw_mcp_result := none
                error := some e
                command := server_info.command
                args := server_info.args
                description := server_info.description
                data := none }

/-- The three response shapes of the `/agent/do-task` endpoint: the structured
no-server failure, a (success or failure) result mapping from
`call_mcp_server`, or the catch-all failure built by the outer `except`. -/
inductive TaskResponse where
  | noServers (error : String) (available_servers : List String)
  | call (result : MCPCallResult)
  | taskError (error : String) (available_servers : List String)
deriving DecidableEq

/-- `do_task` from main.py. The request body is reduced to its
`user_request` string (lines 170-171 only unwrap the optional `input_data`
nesting). The inner computation is an `Except` whose `.error` stands for an
exception reaching the endpoint's outer `try`; the final match is that outer
`except`, which converts it into the catch-all failure mapping. -/
def do_task (mcp_servers : List MCPServerInfo) (user_request : String)
    (outcome : Except String String) : TaskResponse :=
  let body : Except String TaskResponse :=
    match find_server_by_keywords mcp_servers user_request with
    | none => .ok (.noServers "No MCP servers available" (mcp_servers.map MCPServerInfo.name))
    | some server_name =>
        match call_mcp_server mcp_servers server_name "generate_email_draft"
            (do_task_arguments user_request) outcome with
        | .ok r => .ok (.call r)
        | .error e => .error e
  match body with
  | .ok resp => resp
  | .error e => .taskError ("Task processing error: " ++ e) (mcp_servers.map MCPServerInfo.name)

/-- Per-tool info the selector is constructed with (`available_tools` values):
the configured MCP method name, description and routing keywords. The opaque
`client` handle is not part of the data model. -/
structure ToolInfo where
  method : String
  description : String
  keywords : List String
deriving DecidableEq

/-- String-valued input payload of the selector (the inbound request mapping);
Python dict modelled as an association list in insertion order. -/
abbrev InputData := List (String × String)

/-- What json.loads does to the raw LLM response text: it raises
JSONDecodeError (`notJson`), yields a non-dict JSON value (`jsonNonDict`, on
which the subsequent `.get` raises AttributeError), or yields a dict whose
`selected_tool` and `arguments` fields may each be absent. -/
inductive LLMResponseShape where
  | notJson (raw : String)
  | jsonNonDict
  | jsonDict (selected_tool : Option String) (arguments : Option PyDict)

/-- `LLMToolSelector._generate_fallback_arguments`: with a `user_request` key,
pattern-extract the email body and detect the tone; otherwise concatenate all
string values (legacy branch). -/
def generate_fallback_arguments (input_data : InputData) : PyDict :=
  match input_data.lookup "user_request" with
  | some user_request =>
      let original_email := extract_original_email user_request
      let tone := detect_tone user_request
      [("original_email", .s (if original_email == "" then "User request" else original_email)),
       ("tone", .s tone),
       ("context", .d [("reply_type", .s "reply"),
                       ("urgency", .s (if tone == "urgent" then "high" else "normal"))])]
  | none =>
      let text_content :=
        (input_data.foldl (fun acc p => acc ++ p.2 ++ " ") "").trim
      [("original_email", .s (if text_content == "" then "User request" else text_content)),
       ("tone", .s "professional"),
       ("context", .d [("reply_type", .s "reply"), ("urgency", .s "normal")])]

/-- `LLMToolSelector._fallback_selection`. The source tests email keywords
against `str(input_data).lower()`, but both branches of that test return the
same pair, so the function is constantly the hardcoded `email_draft` plus the
heuristic arguments. -/
def fallback_selection (input_data : InputData) : String × PyDict :=
  ("email_draft", generate_fallback_arguments input_data)

/-- `LLMToolSelector._parse_llm_response`. On a JSON dict, take
`selected_tool` (default `email_draft`) and `arguments` (default empty). On
JSONDecodeError, scan the known tool names for one occurring verbatim in the
lowercased response, with `email_draft` as ultimate fallback; either way the
arguments are the heuristic ones for `{"response": response}`. On a non-dict
JSON value `.get` raises, which this function does not catch. -/
def parse_llm_response (available_tools : List (String × ToolInfo))
    (response : LLMResponseShape) : Except String (String × PyDict) :=
  match response with
  | .jsonDict selected_tool arguments =>
      .ok (selected_tool.getD "email_draft", arguments.getD [])
  | .jsonNonDict => .error "AttributeError: get"
  | .notJson raw =>
      match available_tools.find? (fun p => pyIn p.1 (pyLower raw)) with
      | some p => .ok (p.1, generate_fallback_arguments [("response", raw)])
      | none => .ok ("email_draft", generate_fallback_arguments [("response", raw)])

/-- `LLMToolSelector._llm_select_and_generate`. `llm_outcome` models the
`call_llm` invocation: `.error e` if it raised `e`, `.ok shape` the parse
shape of the returned text. Everything inside the `try` that raises (the call
itself, or `.get` on a non-dict parse) lands in `_fallback_selection`; a
parsed-but-unknown tool name is replaced by the hardcoded `email_draft` with
heuristic arguments. -/
def llm_select_and_generate (available_tools : List (String × ToolInfo))
    (input_data : InputData) (llm_outcome : Except String LLMResponseShape) :
    String × PyDict :=
  match llm_outcome with
  | .error _ => fallback_selection input_data
  | .ok response =>
      match parse_llm_response available_tools response with
      | .error _ => fallback_selection input_data
      | .ok parsed =>
          if available_tools.any (fun p => p.1 == parsed.1) then parsed
          else ("email_draft", generate_fallback_arguments input_data)

/-- `LLMToolSelector.select_tool_and_generate_args`. Step 1 (schema discovery
via `_get_tool_schemas`) only feeds the prompt text and substitutes default
schemas on per-server failures; the returned selection is exactly that of
`_llm_select_and_generate`. -/
def select_tool_and_generate_args (available_tools : List (String × ToolInfo))
    (input_data : InputData) (llm_outcome : Except String LLMResponseShape) :
    String × PyDict :=
  llm_select_and_generate available_tools input_data llm_outcome

/-- State of an `MCPClient` as far as `__aexit__` reads it: the optional
`ClientSession` and the optional stdio transport context, identified by
abstract handles. `__aexit__` never reassigns either attribute. -/
structure MCPClientState where
  session : Option Nat
  client_ctx : Option Nat
deriving DecidableEq

/-- The inner teardown calls `MCPClient.__aexit__` can issue, in order. -/
inductive InnerClose where
  | sessionExit (handle : Nat)
  | transportExit (handle : Nat)
deriving DecidableEq

/-- The observable effect of `MCPClient.__aexit__`'s body: the inner
`__aexit__` calls actually issued, and the exception caught and logged by its
`except` clause, if any. `session_outcome` / `transport_outcome` model what
the inner session close and transport close would do (`.error e` = raise).
A raise from the session close skips the transport close (the `except`
catches it immediately). -/
def MCPClient.aexitEffects (st : MCPClientState)
    (session_outcome transport_outcome : Except String Unit) :
    List InnerClose × Option String :=
  match st.session with
  | some s =>
      match session_outcome with
      | .error e => ([.sessionExit s], some e)
      | .ok _ =>
          match st.client_ctx with
          | some c =>
              match transport_outcome with
              | .error e => ([.sessionExit s, .transportExit c], some e)
              | .ok _ => ([.sessionExit s, .transportExit c], none)
          | none => ([.sessionExit s], none)
  | none =>
      match st.client_ctx with
      | some c =>
          match transport_outcome with
          | .error e => ([.transportExit c], some e)
          | .ok _ => ([.transportExit c], none)
      | none => ([], none)

/-- `MCPClient.__aexit__`: issue the teardown calls (with every exception
caught and only logged — the codomain has no error channel, mirroring that
the method never raises), and leave the client state unchanged (the source
never resets `self.session` or `self._client_ctx`). -/
def MCPClient.aexit (st : MCPClientState)
    (session_outcome transport_outcome : Except String Unit) :
    MCPClientState × (List InnerClose × Option String) :=
  (st, MCPClient.aexitEffects st session_outcome transport_outcome)

/-- Sample descriptor used in concrete instances: the "mailer" server of the
spec's worked example. -/
def mailer_server : MCPServerInfo :=
  { name := "mailer", command := "python", args := [], description := "mail server"
    keywords := ["email", "mail"] }

/-- Sample descriptor with no keyword overlap with its own name, used in
concrete instances for the registry's name-fallback path. -/
def calendar_server : MCPServerInfo :=
  { name := "calendar", command := "python", args := [], description := "calendar server"
    keywords := ["schedule"] }

/-- Sample configuration entry for a second server, used in reload instances. -/
def beta_config : RawServerConfig :=
  { command := some "node", args := some ["b.js"], description := some "beta server"
    keywords := some ["beta"] }

/-- Sample selector registry with a single non-email tool. -/
def web_search_tool : ToolInfo :=
  { method := "web_search", description := "web search tool", keywords := ["search"] }

/-! ## General lemmas about the embedded operations -/

/-- `find?` over a concatenation whose left part refutes the predicate and
whose right part starts with a witness returns that witness. -/
theorem find?_append_cons_of_left_false {α : Type} (p : α → Bool) :
    ∀ (pre : List α) (s : α) (post : List α),
      (∀ x ∈ pre, p x = false) → p s = true →
      (pre ++ s :: post).find? p = some s
  | [], s, post, _, hs => by
      simp [List.find?_cons_of_pos _ hs]
  | a :: pre, s, post, hpre, hs => by
      have ha : p a = false := hpre a (by simp)
      simp only [List.cons_append]
      rw [List.find?_cons_of_neg _ (by simp [ha])]
      exact find?_append_cons_of_left_false p pre s post
        (fun x hx => hpre x (by simp [hx])) hs

/-- Membership after a Python-style dict insertion: the element was already
there or is the inserted one. -/
theorem mem_dictInsert (l : List MCPServerInfo) (x info : MCPServerInfo)
    (h : info ∈ dictInsert l x) : info ∈ l ∨ info = x := by
  unfold dictInsert at h
  by_cases hc : l.any (fun s => s.name == x.name)
  · rw [if_pos hc] at h
    obtain ⟨s, hs, hEq⟩ := List.mem_map.mp h
    by_cases hn : s.name == x.name
    · right
      rw [if_pos hn] at hEq
      exact hEq.symm
    · left
      rw [if_neg hn] at hEq
      exact hEq ▸ hs
  · rw [if_neg hc] at h
    rcases List.mem_append.mp h with h1 | h1
    · exact Or.inl h1
    · exact Or.inr (List.mem_singleton.mp h1)

/-- Every descriptor present after folding the configuration entries into a
starting state is either from the starting state or built from an entry. -/
theorem mem_foldl_dictInsert :
    ∀ (entries : List (String × RawServerConfig)) (st : List MCPServerInfo)
      (info : MCPServerInfo),
      info ∈ entries.foldl (fun acc e => dictInsert acc (mkServerInfo e.1 e.2)) st →
      info ∈ st ∨ ∃ e ∈ entries, info = mkServerInfo e.1 e.2
  | [], _, _, h => Or.inl h
  | e0 :: entries, st, info, h => by
      rcases mem_foldl_dictInsert entries (dictInsert st (mkServerInfo e0.1 e0.2)) info h with
        h1 | ⟨e, he, hEq⟩
      · rcases mem_dictInsert st (mkServerInfo e0.1 e0.2) info h1 with h2 | h2
        · exact Or.inl h2
        · exact Or.inr ⟨e0, by simp, h2⟩
      · exact Or.inr ⟨e, by simp [he], hEq⟩

/-- A name returned by main.py's `find_server_by_keywords` always names a
registered server (the keyword branch returns a member, the fallback branch
the head). -/
theorem find_server_by_keywords_mem (mcp_servers : List MCPServerInfo)
    (text n : String) (h : find_server_by_keywords mcp_servers text = some n) :
    ∃ s ∈ mcp_servers, s.name = n := by
  unfold find_server_by_keywords at h
  cases hq : mcp_servers.find?
      (fun s => s.keywords.any (fun keyword => pyIn (pyLower keyword) (pyLower text))) with
  | some s =>
      rw [hq] at h
      exact ⟨s, List.mem_of_find?_eq_some hq, Option.some.inj h⟩
  | none =>
      rw [hq] at h
      cases mcp_servers with
      | nil => simp at h
      | cons a l =>
          refine ⟨a, by simp, ?_⟩
          simpa using h

/-- A registered name makes the `find?` used by `call_mcp_server` succeed. -/
theorem find?_name_of_mem (mcp_servers : List MCPServerInfo) (n : String)
    (h : ∃ s ∈ mcp_servers, s.name = n) :
    ∃ info, mcp_servers.find? (fun s => s.name == n) = some info := by
  have : (mcp_servers.find? (fun s => s.name == n)).isSome := by
    rcases h with ⟨s, hs, hn⟩
    exact List.find?_isSome.mpr ⟨s, hs, by simp [hn]⟩
  exact Option.isSome_iff_exists.mp this

/-! ## Claims -/

/-- C8: keyword matching is a case-insensitive substring containment check of
each descriptor's keywords against the text, and the first descriptor in load
order with any matching keyword wins. -/
theorem keyword_routing_first_match_wins
    (pre : List MCPServerInfo) (s : MCPServerInfo) (post : List MCPServerInfo)
    (text : String)
    (hpre : ∀ p ∈ pre, ∀ kw ∈ p.keywords, pyIn (pyLower kw) (pyLower text) = false)
    (hs : ∃ kw ∈ s.keywords, pyIn (pyLower kw) (pyLower text) = true) :
    find_server_by_keywords (pre ++ s :: post) text = some s.name := by
  have hfind : (pre ++ s :: post).find?
      (fun srv => srv.keywords.any (fun keyword => pyIn (pyLower keyword) (pyLower text)))
      = some s := by
    apply find?_append_cons_of_left_false
    · intro x hx
      simp only [List.any_eq_false]
      intro kw hkw
      simp [hpre x hx kw hkw]
    · simp only [List.any_eq_true]
      rcases hs with ⟨kw, hkw, hIn⟩
      exact ⟨kw, hkw, hIn⟩
  unfold find_server_by_keywords
  rw [hfind]

/-- C8 witness: the spec's worked example — server "mailer" with keywords
email/mail and the input "please draft an email". -/
theorem keyword_routing_first_match_wins_witness :
    ((∀ p ∈ ([] : List MCPServerInfo), ∀ kw ∈ p.keywords,
        pyIn (pyLower kw) (pyLower "please draft an email") = false) ∧
      (∃ kw ∈ mailer_server.keywords,
        pyIn (pyLower kw) (pyLower "please draft an email") = true)) ∧
    find_server_by_keywords [mailer_server] "please draft an email" = some "mailer" := by
  refine ⟨⟨by decide, by decide⟩, ?_⟩
  exact keyword_routing_first_match_wins [] mailer_server [] "please draft an email"
    (by decide) (by decide)

/-- C2 counterexample: a non-empty registry where no keyword (nor the server
name) occurs in the text — `MCPRegistry.find_server_by_keywords` returns
`none`, not the first-loaded descriptor. -/
theorem registry_find_returns_none_cex :
    MCPRegistry.find_server_by_keywords [mailer_server] "hello there" = none ∧
    ([mailer_server] : List MCPServerInfo) ≠ [] := by
  exact ⟨by decide, by decide⟩

/-- C2 (amended): the first-loaded fallback invariant holds for main.py's
module-level `find_server_by_keywords` — with no keyword match it returns the
first-loaded server's name for a non-empty registry and `none` for an empty
one; the registry method instead falls back to a name check (see C10). -/
theorem find_server_fallback_first_loaded
    (mcp_servers : List MCPServerInfo) (text : String)
    (hno : ∀ s ∈ mcp_servers, ∀ kw ∈ s.keywords, pyIn (pyLower kw) (pyLower text) = false) :
    find_server_by_keywords mcp_servers text = mcp_servers.head?.map MCPServerInfo.name := by
  have hq : mcp_servers.find?
      (fun s => s.keywords.any (fun keyword => pyIn (pyLower keyword) (pyLower text)))
      = none := by
    simp only [List.find?_eq_none, List.any_eq_true, not_exists, not_and]
    intro s hs kw hkw
    simp [hno s hs kw hkw]
  unfold find_server_by_keywords
  rw [hq]

/-- C2 witness: one registered server, no keyword occurring in the text. -/
theorem find_server_fallback_first_loaded_witness :
    (∀ s ∈ [mailer_server], ∀ kw ∈ s.keywords,
        pyIn (pyLower kw) (pyLower "hello there") = false) ∧
    find_server_by_keywords [mailer_server] "hello there" =
      [mailer_server].head?.map MCPServerInfo.name := by
  exact ⟨by decide, find_server_fallback_first_loaded [mailer_server] "hello there" (by decide)⟩

/-- C10: with no keyword match, `MCPRegistry.find_server_by_keywords` performs
a case-insensitive substring check of each server's name against the text (in
load order) and returns the first such server; if that also fails it returns
`none` — never an unconditional first-loaded fallback. -/
theorem registry_find_name_fallback
    (servers : List MCPServerInfo) (text : String)
    (hno : ∀ s ∈ servers, ∀ kw ∈ s.keywords, pyIn (pyLower kw) (pyLower text) = false) :
    MCPRegistry.find_server_by_keywords servers text =
      servers.find? (fun server => pyIn (pyLower server.name) (pyLower text)) ∧
    ((∀ s ∈ servers, pyIn (pyLower s.name) (pyLower text) = false) →
      MCPRegistry.find_server_by_keywords servers text = none) := by
  have hq : servers.find?
      (fun server => server.keywords.any
        (fun keyword => pyIn (pyLower keyword) (pyLower text)))
      = none := by
    simp only [List.find?_eq_none, List.any_eq_true, not_exists, not_and]
    intro s hs kw hkw
    simp [hno s hs kw hkw]
  constructor
  · unfold MCPRegistry.find_server_by_keywords
    rw [hq]
  · intro hname
    unfold MCPRegistry.find_server_by_keywords
    rw [hq]
    simp only [List.find?_eq_none]
    intro s hs
    simp [hname s hs]

/-- C10 witness: a "calendar" server whose keyword does not occur in the text
but whose name does — the name fallback returns it. -/
theorem registry_find_name_fallback_witness :
    (∀ s ∈ [calendar_server], ∀ kw ∈ s.keywords,
        pyIn (pyLower kw) (pyLower "open my calendar now") = false) ∧
    MCPRegistry.find_server_by_keywords [calendar_server] "open my calendar now" =
      [calendar_server].find?
        (fun server => pyIn (pyLower server.name) (pyLower "open my calendar now")) := by
  exact ⟨by decide,
    (registry_find_name_fallback [calendar_server] "open my calendar now" (by decide)).1⟩

/-- C1: any exception raised while using the protocol session is caught by
`call_mcp_server` and converted into a success=false mapping carrying the
server name, the tool name and the rendered error, and `do_task` returns
that structured failure instead of propagating the exception. -/
theorem session_exception_becomes_structured_failure
    (mcp_servers : List MCPServerInfo) (user_request server_name e : String)
    (hfind : find_server_by_keywords mcp_servers user_request = some server_name) :
    ∃ r : MCPCallResult,
      call_mcp_server mcp_servers server_name "generate_email_draft"
        (do_task_arguments user_request) (.error e) = .ok r ∧
      do_task mcp_servers user_request (.error e) = .call r ∧
      r.success = false ∧ r.server_name = server_name ∧
      r.tool_name = "generate_email_draft" ∧ r.error = some e := by
  obtain ⟨info, hinfo⟩ := find?_name_of_mem mcp_servers server_name
    (find_server_by_keywords_mem mcp_servers user_request server_name hfind)
  have hcall : call_mcp_server mcp_servers server_name "generate_email_draft"
      (do_task_arguments user_request) (.error e) =
      .ok { success := false
            server_name := server_name
            tool_name := "generate_email_draft"
            raw_mcp_result := none
            error := some e
            command := info.command
            args := info.args
            description := info.description
            data := none } := by
    unfold call_mcp_server
    rw [hinfo]
  refine ⟨_, hcall, ?_, rfl, rfl, rfl, rfl⟩
  simp only [do_task, hfind, hcall]

/-- C1 witness: the mailer registry, a request matching its keyword, and a
session that raises "boom". -/
theorem session_exception_becomes_structured_failure_witness :
    find_server_by_keywords [mailer_server] "please draft an email" = some "mailer" ∧
    ∃ r : MCPCallResult,
      call_mcp_server [mailer_server] "mailer" "generate_email_draft"
        (do_task_arguments "please draft an email") (.error "boom") = .ok r ∧
      do_task [mailer_server] "please draft an email" (.error "boom") = .call r ∧
      r.success = false ∧ r.server_name = "mailer" ∧
      r.tool_name = "generate_email_draft" ∧ r.error = some "boom" := by
  exact ⟨by decide,
    session_exception_becomes_structured_failure [mailer_server]
      "please draft an email" "mailer" "boom" (by decide)⟩

/-- C3 counterexample: the main.py reload path (`/agent/config/reload` invokes
`load_mcp_config` on the existing mapping without clearing it) keeps an old
server that the new configuration does not mention — a mix of old and new. -/
theorem main_reload_mixes_configs_cex :
    load_mcp_config [mailer_server] (.parsed [("beta_server", beta_config)]) =
      [mailer_server, mkServerInfo "beta_server" beta_config] ∧
    mailer_server.name ≠ "beta_server" := by
  exact ⟨by decide, by decide⟩

/-- C3 (amended): `MCPRegistry.reload_config` does replace the descriptor set
wholesale — its result is independent of the prior state, every surviving
descriptor is built from an entry of the new configuration, and a reload
whose source is absent leaves the set empty; main.py's reload path instead
merges the new configuration into the old mapping (see the counterexample). -/
theorem registry_reload_replaces_wholesale
    (servers servers2 : List MCPServerInfo) (src : ConfigSource) :
    MCPRegistry.reload_config servers src = MCPRegistry.reload_config servers2 src ∧
    (∀ entries, src = .parsed entries →
      ∀ info ∈ MCPRegistry.reload_config servers src,
        ∃ e ∈ entries, info = mkServerInfo e.1 e.2) ∧
    MCPRegistry.reload_config servers .absent = [] := by
  refine ⟨rfl, ?_, rfl⟩
  intro entries hsrc info hmem
  subst hsrc
  rcases mem_foldl_dictInsert entries [] info hmem with h | h
  · simp at h
  · exact h

/-- C3 witness: reloading over a non-trivial prior state with a one-entry
configuration leaves exactly descriptors built from that entry. -/
theorem registry_reload_replaces_wholesale_witness :
    (MCPRegistry.reload_config [mailer_server] (.parsed [("beta_server", beta_config)]) =
      MCPRegistry.reload_config [] (.parsed [("beta_server", beta_config)])) ∧
    ((ConfigSource.parsed [("beta_server", beta_config)] : ConfigSource) =
      .parsed [("beta_server", beta_config)]) ∧
    (mkServerInfo "beta_server" beta_config ∈
      MCPRegistry.reload_config [mailer_server] (.parsed [("beta_server", beta_config)])) ∧
    ∃ e ∈ [("beta_server", beta_config)],
      mkServerInfo "beta_server" beta_config = mkServerInfo e.1 e.2 := by
  refine ⟨?_, rfl, by decide, ?_⟩
  · exact (registry_reload_replaces_wholesale [mailer_server] []
      (.parsed [("beta_server", beta_config)])).1
  · exact (registry_reload_replaces_wholesale [mailer_server] []
      (.parsed [("beta_server", beta_config)])).2.1
      [("beta_server", beta_config)] rfl
      (mkServerInfo "beta_server" beta_config) (by decide)

/-- C5 counterexample: with an absent configuration source, `load_config`
returns normally (no ConfigError is raised — the registry is simply left as
it was), while `reload_config` clears first and so ends with an empty
registry instead of the prior descriptor set. -/
theorem load_swallows_and_reload_clears_cex :
    MCPRegistry.load_config [mailer_server] .absent = [mailer_server] ∧
    MCPRegistry.reload_config [mailer_server] .absent = [] ∧
    ([mailer_server] : List MCPServerInfo) ≠ [] := by
  exact ⟨rfl, rfl, by decide⟩

/-- C5 (amended): `load_config` never fails — an absent or malformed source is
logged and swallowed, leaving the current descriptor set unchanged; because
`reload_config` clears before loading, a reload whose load finds the source
absent or malformed leaves the registry empty, not the prior set. -/
theorem load_config_failure_semantics
    (servers : List MCPServerInfo) (msg : String) :
    MCPRegistry.load_config servers .absent = servers ∧
    MCPRegistry.load_config servers (.malformed msg) = servers ∧
    MCPRegistry.reload_config servers .absent = [] ∧
    MCPRegistry.reload_config servers (.malformed msg) = [] := by
  exact ⟨rfl, rfl, rfl, rfl⟩

/-- C9 counterexample: `__aexit__` leaves the client state untouched (the
session and transport handles stay set), so a second close in sequence issues
the inner teardown calls again — it is not a no-op. -/
theorem second_close_not_noop_cex :
    (MCPClient.aexit ⟨some 0, some 1⟩ (.ok ()) (.ok ())).1 = ⟨some 0, some 1⟩ ∧
    (MCPClient.aexit (MCPClient.aexit ⟨some 0, some 1⟩ (.ok ()) (.ok ())).1
        (.ok ()) (.ok ())).2.1 = [.sessionExit 0, .transportExit 1] ∧
    ([InnerClose.sessionExit 0, .transportExit 1] : List InnerClose) ≠ [] := by
  exact ⟨rfl, rfl, by decide⟩

/-- C9 (amended): `__aexit__` never raises — a failing inner session close or
transport close is caught and only logged (a session-close failure also skips
the transport close) — but the client state is left unchanged, so a second
close repeats the inner teardown calls instead of being a no-op. -/
theorem aexit_never_raises_but_repeats
    (st : MCPClientState) (session_outcome transport_outcome : Except String Unit)
    (s c : Nat) (e : String) (t2 : Except String Unit) :
    (MCPClient.aexit st session_outcome transport_outcome).1 = st ∧
    MCPClient.aexit (MCPClient.aexit st session_outcome transport_outcome).1
        session_outcome transport_outcome =
      MCPClient.aexit st session_outcome transport_outcome ∧
    (MCPClient.aexit ⟨some s, some c⟩ (.ok ()) (.ok ())).2 =
      ([.sessionExit s, .transportExit c], none) ∧
    (MCPClient.aexit ⟨some s, some c⟩ (.error e) t2).2 = ([.sessionExit s], some e) ∧
    (MCPClient.aexit ⟨some s, some c⟩ (.ok ()) (.error e)).2 =
      ([.sessionExit s, .transportExit c], some e) := by
  exact ⟨rfl, rfl, rfl, rfl, rfl⟩

/-- The validation step at the end of `_llm_select_and_generate`: its result
is either the hardcoded `email_draft` or a registered tool name. -/
theorem validation_result_cases (available_tools : List (String × ToolInfo))
    (input_data : InputData) (parsed : String × PyDict) :
    (if available_tools.any (fun p => p.1 == parsed.1) then parsed
     else ("email_draft", generate_fallback_arguments input_data)).1 = "email_draft" ∨
    (if available_tools.any (fun p => p.1 == parsed.1) then parsed
     else ("email_draft", generate_fallback_arguments input_data)).1 ∈
      available_tools.map Prod.fst := by
  by_cases h : available_tools.any (fun p => p.1 == parsed.1) = true
  · right
    rw [if_pos h]
    obtain ⟨p, hp, hb⟩ := List.any_eq_true.mp h
    have : p.1 = parsed.1 := by simpa using hb
    exact this ▸ List.mem_map.mpr ⟨p, hp, rfl⟩
  · left
    rw [if_neg h]

/-- C4 counterexample: with only "web_search" registered and the LLM choosing
an unknown tool, the selector returns "email_draft" — a name that is not
among the registry's known tool identities. -/
theorem unknown_tool_replaced_by_unregistered_default_cex :
    (select_tool_and_generate_args [("web_search", web_search_tool)]
        [("user_request", "find the weather")]
        (.ok (.jsonDict (some "bogus_tool") (some [])))).1 = "email_draft" ∧
    "email_draft" ∉ ([("web_search", web_search_tool)].map Prod.fst) := by
  exact ⟨rfl, by decide⟩

/-- C4 (amended): an unknown `selected_tool` is discarded and replaced by the
hardcoded name "email_draft" with heuristically generated arguments (not by a
registry-derived default), so the selector's result is always either a
registered tool name or the literal "email_draft" — which is itself
registered only when an "email_draft" tool is configured. -/
theorem selector_result_registered_or_default
    (available_tools : List (String × ToolInfo)) (input_data : InputData)
    (llm_outcome : Except String LLMResponseShape) :
    (select_tool_and_generate_args available_tools input_data llm_outcome).1 = "email_draft" ∨
    (select_tool_and_generate_args available_tools input_data llm_outcome).1 ∈
      available_tools.map Prod.fst := by
  unfold select_tool_and_generate_args llm_select_and_generate
  cases llm_outcome with
  | error msg => exact Or.inl rfl
  | ok response =>
      cases response with
      | jsonNonDict => exact Or.inl rfl
      | jsonDict selected_tool arguments =>
          exact validation_result_cases available_tools input_data
            (selected_tool.getD "email_draft", arguments.getD [])
      | notJson raw =>
          cases hf : available_tools.find? (fun p => pyIn p.1 (pyLower raw)) with
          | some p =>
              simp only [parse_llm_response, hf]
              exact validation_result_cases available_tools input_data
                (p.1, generate_fallback_arguments [("response", raw)])
          | none =>
              simp only [parse_llm_response, hf]
              exact validation_result_cases available_tools input_data
                ("email_draft", generate_fallback_arguments [("response", raw)])

/-- C6: a raising LLM call degrades to `_fallback_selection`; a non-dict parse
(AttributeError inside the try) does the same; an unparseable (non-JSON)
response yields a tool name with heuristically generated arguments. In every
case `select_tool_and_generate_args` returns a selection — the LLM error
never propagates. -/
theorem llm_failure_degrades_to_fallback
    (available_tools : List (String × ToolInfo)) (input_data : InputData) :
    (∀ msg, select_tool_and_generate_args available_tools input_data (.error msg) =
        fallback_selection input_data) ∧
    (select_tool_and_generate_args available_tools input_data (.ok .jsonNonDict) =
        fallback_selection input_data) ∧
    (∀ raw, ∃ tool_name,
        select_tool_and_generate_args available_tools input_data (.ok (.notJson raw)) =
          (tool_name, generate_fallback_arguments [("response", raw)]) ∨
        select_tool_and_generate_args available_tools input_data (.ok (.notJson raw)) =
          (tool_name, generate_fallback_arguments input_data)) := by
  refine ⟨fun msg => rfl, rfl, fun raw => ?_⟩
  unfold select_tool_and_generate_args llm_select_and_generate
  cases hf : available_tools.find? (fun p => pyIn p.1 (pyLower raw)) with
  | some p =>
      have hany : available_tools.any (fun q => q.1 == p.1) = true :=
        List.any_eq_true.mpr ⟨p, List.mem_of_find?_eq_some hf, by simp⟩
      refine ⟨p.1, Or.inl ?_⟩
      simp only [parse_llm_response, hf, hany, ite_true]
  | none =>
      by_cases hb : available_tools.any (fun q => q.1 == "email_draft") = true
      · refine ⟨"email_draft", Or.inl ?_⟩
        simp only [parse_llm_response, hf, hb, ite_true]
      · refine ⟨"email_draft", Or.inr ?_⟩
        simp only [parse_llm_response, hf]
        rw [if_neg (by simpa using hb)]

/-- C7 counterexample: with an empty registry the selector still returns the
hardcoded selection ("email_draft" with heuristic arguments) rather than
reporting a NoServersAvailable/SelectionError outcome. -/
theorem empty_registry_selector_returns_selection_cex :
    select_tool_and_generate_args [] [("user_request", "draft an email")]
        (.error "connection refused") =
      ("email_draft", generate_fallback_arguments [("user_request", "draft an email")]) := by
  exact rfl

/-- C7 (amended): on an empty registry, `do_task` does report the structured
"No MCP servers available" failure, but `select_tool_and_generate_args`
always returns the hardcoded selection ("email_draft" plus heuristic
arguments) whatever the LLM does — it never reports a selection error. -/
theorem empty_registry_outcomes
    (user_request : String) (outcome : Except String String)
    (input_data : InputData) (llm_outcome : Except String LLMResponseShape) :
    do_task [] user_request outcome = .noServers "No MCP servers available" [] ∧
    select_tool_and_generate_args [] input_data llm_outcome =
      ("email_draft", generate_fallback_arguments input_data) := by
  refine ⟨rfl, ?_⟩
  cases llm_outcome with
  | error msg => rfl
  | ok response =>
      cases response with
      | jsonNonDict => rfl
      | jsonDict selected_tool arguments => rfl
      | notJson raw => rfl
